import Mathlib

/-!
Verification of the tech-blog generation pipeline (src/app.py and
src/const/const.py): a shallow embedding of the corpus reader, the outer
code-fence strippers, the continuation-assembly loops, the session state
store, the per-file analysis loop and the per-chapter drafting function,
with theorems settling the specification claims.

Text is modelled as `List Char` (one entry per decoded character, matching
Python's `str`).  The Python regular expressions of app.py are embedded as
explicit scanning functions with the same leftmost-match semantics; the
whitespace class is the ASCII part of Python's regex class for whitespace.
Language-model completion calls are abstracted as a function from the call
index (within one run) to the returned text; JSON parsing (the standard
library `json.loads` composed with `.get` of the chapters key, which is not
repository code) is abstracted as a function from text to an `Except` value
carrying either the error text or the list of serialized chapters.
-/

abbrev Str : Type := List Char

/-- Whitespace test covering the ASCII characters matched by Python's
`str.strip` and by the regex whitespace class. -/
def isPyWS (c : Char) : Bool :=
  c == ' ' || c == '\t' || c == '\n' || c == '\r' || c == '\x0B' || c == '\x0C'

/-- Python `str.rstrip()`: remove trailing whitespace. -/
def pyRstrip (l : Str) : Str :=
  (l.reverse.dropWhile isPyWS).reverse

/-- Python `str.strip()`: remove leading and trailing whitespace. -/
def pyStrip (l : Str) : Str :=
  (pyRstrip l).dropWhile isPyWS

/-- Drop the last `n` characters of a text. -/
def dropRightN (n : Nat) (l : Str) : Str :=
  l.take (l.length - n)

/-- Lower-case a text character by character (Python `str.lower` on the
ASCII range, which is all the embedded patterns need). -/
def lowerStr (l : Str) : Str :=
  l.map Char.toLower

/-- Python's substring test `pat in s`: some suffix of `s` starts with
`pat`. -/
def strContains (pat : Str) : Str → Bool
  | [] => pat.isPrefixOf []
  | l@(_ :: xs) => pat.isPrefixOf l || strContains pat xs

/-- DISALLOWED_EXTENSIONS from src/const/const.py. -/
def DISALLOWED_EXTENSIONS : List Str :=
  [".lock", ".gitignore", ".dockerignore", ".npmignore", ".yarnignore",
   ".pyc", ".pyo", ".pyd", ".pyw", ".pyz", ".pyzw",
   ".jpg", ".jpeg", ".png", ".gif", ".bmp", ".svg", ".tiff", ".ico",
   ".mp4", ".mov", ".avi", ".mkv", ".wmv", ".flv",
   ".mp3", ".wav", ".aac", ".flac", ".ogg", ".m4a",
   ".zip", ".rar", ".7z", ".tar", ".gz", ".bz2", ".xz",
   ".exe", ".dll", ".so", ".bin", ".app", ".msi", ".deb", ".rpm",
   ".ttf", ".otf", ".woff", ".woff2",
   ".doc", ".docx", ".xls", ".xlsx", ".ppt", ".pptx"].map String.data

/-- IGNORED_DIRECTORIES from src/const/const.py. -/
def IGNORED_DIRECTORIES : List Str :=
  ["__pycache__", ".git", ".vscode"].map String.data

/-- MAX_FILE_SIZE from src/const/const.py and read_project_files: 20 MiB. -/
def MAX_FILE_SIZE : Nat := 20 * 1024 * 1024

/-- MAX_FILE_LENGTH from src/const/const.py and read_project_files. -/
def MAX_FILE_LENGTH : Nat := 20000

/-- One file of the project tree handed to `os.walk`: the names of the
directories on the path from the walk root to the file, the file name, the
byte size reported by `os.path.getsize`, and the decoded character content
read with lossy decoding. -/
structure FileEntry where
  dirs : List Str
  name : Str
  size : Nat
  content : Str
deriving DecidableEq

/-- `os.path.relpath(file_path, root)`: path components joined by the
separator. -/
def relPath (e : FileEntry) : Str :=
  List.intercalate "/".data (e.dirs ++ [e.name])

/-- True when no ancestor directory of the file is in IGNORED_DIRECTORIES;
`os.walk` with in-place pruning of `dirnames` never reaches a file below an
ignored directory. -/
def notIgnored (e : FileEntry) : Bool :=
  e.dirs.all (fun d => !(IGNORED_DIRECTORIES.contains d))

/-- `file.lower().endswith(DISALLOWED_EXTENSIONS)` from app.py. -/
def disallowedExt (name : Str) : Bool :=
  DISALLOWED_EXTENSIONS.any (fun e => e.isSuffixOf (lowerStr name))

/-- The enumeration filter of process_project (app.py lines 352-357): prune
ignored directories, then skip files with a disallowed extension.  These are
the files submitted to per-file analysis. -/
def analyzedFiles (files : List FileEntry) : List FileEntry :=
  files.filter (fun e => notIgnored e && !disallowedExt e.name)

/-- The retention filter of read_project_files (app.py lines 157-193):
ignored directories pruned, disallowed extensions skipped, paths containing
the pycache marker skipped, files over MAX_FILE_SIZE bytes skipped, files
over MAX_FILE_LENGTH decoded characters skipped. -/
def keptFile (e : FileEntry) : Bool :=
  notIgnored e && !disallowedExt e.name
    && !(strContains "__pycache__".data (relPath e))
    && decide (e.size ≤ MAX_FILE_SIZE)
    && decide (e.content.length ≤ MAX_FILE_LENGTH)

/-- Files retained by read_project_files, in walk order. -/
def corpusKept (files : List FileEntry) : List FileEntry :=
  files.filter keptFile

/-- The header line prepended to each retained file by read_project_files. -/
def fileHeader (e : FileEntry) : Str :=
  "\n\n### File: ".data ++ relPath e ++ "\n".data

/-- The contribution of one retained file to `all_text`. -/
def fileBlock (e : FileEntry) : Str :=
  fileHeader e ++ e.content

/-- read_project_files (app.py lines 152-198): the concatenated corpus,
`"\n".join(all_text)` over the retained files in walk order. -/
def read_project_files (files : List FileEntry) : Str :=
  List.intercalate "\n".data ((corpusKept files).map fileBlock)

/-- Opening fence literal of remove_outer_markdown_fence. -/
def mdOpen : Str := "```markdown".data

/-- Opening fence literal of remove_outer_json_fence. -/
def jsonOpen : Str := "```json".data

/-- Closing fence literal. -/
def fenceClose : Str := "```".data

/-- remove_outer_markdown_fence (app.py lines 212-238).  The regex
match of `(three backticks)markdown \s* lazy-group \s* (three backticks)`
anchored at both ends of the stripped text succeeds exactly when the
stripped text starts with the opening literal and ends with a closing
fence, and its group is the interior with surrounding whitespace removed
(the further strip of newline characters in the source is then a no-op). -/
def remove_outer_markdown_fence (text : Str) : Str :=
  let trimmed := pyStrip text
  if mdOpen.isPrefixOf trimmed && fenceClose.isSuffixOf (trimmed.drop 11) then
    pyStrip (dropRightN 3 (trimmed.drop 11))
  else text

/-- remove_outer_json_fence (app.py lines 241-267), same shape with the
json opening literal (7 characters). -/
def remove_outer_json_fence (text : Str) : Str :=
  let trimmed := pyStrip text
  if jsonOpen.isPrefixOf trimmed && fenceClose.isSuffixOf (trimmed.drop 7) then
    pyStrip (dropRightN 3 (trimmed.drop 7))
  else text

/-- The literal word of the sentinel, lower case, for the case-insensitive
patterns. -/
def contWordLower : Str := "continue".data

/-- The literal word of the sentinel, upper case, for the case-sensitive
final clean-up pattern. -/
def contWordUpper : Str := "CONTINUE".data

/-- Scan helper: does any suffix of the text satisfy the matcher?  This is
`re.search` for a pattern every match of which extends to the end of the
text. -/
def scanAny (f : Str → Bool) : Str → Bool
  | [] => f []
  | l@(_ :: xs) => f l || scanAny f xs

/-- Scan helper: remove the suffix starting at the leftmost position whose
suffix satisfies the matcher (identity when there is no match).  This is
`re.sub(pattern, "")` for a pattern every match of which extends to the end
of the text. -/
def scanSubToEnd (f : Str → Bool) : Str → Str
  | [] => []
  | l@(c :: xs) => if f l then [] else c :: scanSubToEnd f xs

/-- Full match, from this position to the end of the text, of the chapter
loop pattern `<(1-4)CONTINUE>(1-4)\s*$` with IGNORECASE (app.py line 511):
one to four opening brackets (a longer run cannot match at this position),
the word, one to four closing brackets (a run of five or more closing
brackets leaves a bracket that the trailing whitespace class rejects), then
only whitespace. -/
def contFullMatch (t : Str) : Bool :=
  let r := (t.takeWhile (fun c => c == '<')).length
  decide (1 ≤ r) && decide (r ≤ 4) &&
    (let t1 := t.drop r
     contWordLower.isPrefixOf (lowerStr t1) &&
       (let t2 := t1.drop 8
        let m := (t2.takeWhile (fun c => c == '>')).length
        decide (1 ≤ m) && decide (m ≤ 4) && (t2.drop m).all isPyWS))

/-- `continue_pattern.search` of the chapter loop. -/
def contSearch (s : Str) : Bool := scanAny contFullMatch s

/-- `continue_pattern.sub("", s)` of the chapter loop. -/
def contSub (s : Str) : Str := scanSubToEnd contFullMatch s

/-- The optional fence residue of the whole-document marker pattern,
`(?:\s*(three backticks))?(?:\n(three backticks))?\s*` up to the end of the
text. -/
def residueOK (u : Str) : Bool :=
  let u1 := u.dropWhile isPyWS
  u1.isEmpty ||
    (fenceClose.isPrefixOf u1 &&
      (let u2 := u1.drop 3
       u2.all isPyWS ||
         ("\n```".data.isPrefixOf u2 && (u2.drop 4).all isPyWS)))

/-- Full match, from this position to the end of the text, of the
whole-document marker pattern of get_full_blog (app.py lines 449-451):
the sentinel, tolerant of code-fence residue, with IGNORECASE. -/
def markerFullMatch (t : Str) : Bool :=
  let r := (t.takeWhile (fun c => c == '<')).length
  decide (1 ≤ r) && decide (r ≤ 4) &&
    (let t1 := t.drop r
     contWordLower.isPrefixOf (lowerStr t1) &&
       (let t2 := t1.drop 8
        let m := (t2.takeWhile (fun c => c == '>')).length
        decide (1 ≤ m) && decide (m ≤ 4) && residueOK (t2.drop m)))

/-- `marker_pattern.search` of get_full_blog. -/
def markerSearch (s : Str) : Bool := scanAny markerFullMatch s

/-- `marker_pattern.sub("", s)` of get_full_blog. -/
def markerSub (s : Str) : Str := scanSubToEnd markerFullMatch s

/-- Match length at this position of the case-sensitive clean-up pattern
`<(1-4)CONTINUE>(1-4)` (app.py line 552): the greedy closing-bracket
quantifier takes at most four brackets of the run. -/
def plainSentLen (t : Str) : Option Nat :=
  let r := (t.takeWhile (fun c => c == '<')).length
  if 1 ≤ r ∧ r ≤ 4 then
    let t1 := t.drop r
    if contWordUpper.isPrefixOf t1 then
      let m := ((t1.drop 8).takeWhile (fun c => c == '>')).length
      if 1 ≤ m then some (r + 8 + min m 4) else none
    else none
  else none

/-- One left-to-right pass of `re.sub` with the clean-up pattern: at each
position, remove a match and continue scanning after it, otherwise keep the
character.  Fuel is the length of the text; each step consumes at least one
character. -/
def subAllSentAux : Nat → Str → Str
  | 0, l => l
  | _ + 1, [] => []
  | n + 1, l@(c :: xs) =>
      match plainSentLen l with
      | some k => subAllSentAux n (l.drop k)
      | none => c :: subAllSentAux n xs

/-- `re.sub(r"<(1-4)CONTINUE>(1-4)", "", s)`: the single left-to-right
replacement pass of app.py line 552. -/
def removeAllSentinels (s : Str) : Str := subAllSentAux s.length s

/-- A sentinel substring (one to four angle brackets around the upper-case
word) occurs somewhere in the text. -/
def hasSentinel (s : Str) : Bool :=
  scanAny (fun t => (plainSentLen t).isSome) s

/-- The process-wide state of app.py: `progress_history`, `progress_status`
and `result_store`, each a keyed map from strings to strings. -/
structure Store where
  history : Str → Option Str
  status : Str → Option Str
  result : Str → Option Str

/-- The state before any write. -/
def emptyStore : Store := ⟨fun _ => none, fun _ => none, fun _ => none⟩

/-- update_progress (app.py lines 92-98): create the history entry as
the empty string when absent, append the message to it, and replace the
latest-status entry with the message. -/
def update_progress (st : Store) (pid msg : Str) : Store :=
  { st with
    history := fun k =>
      if k = pid then some ((st.history pid).getD [] ++ msg) else st.history k
    status := fun k => if k = pid then some msg else st.status k }

/-- `result_store[key] = v`. -/
def putResult (st : Store) (key v : Str) : Store :=
  { st with result := fun k => if k = key then some v else st.result k }

theorem result_update_progress (st : Store) (pid msg : Str) :
    (update_progress st pid msg).result = st.result := rfl

theorem history_update_progress (st : Store) (pid msg k : Str) :
    (update_progress st pid msg).history k =
      if k = pid then some ((st.history pid).getD [] ++ msg)
      else st.history k := rfl

theorem history_putResult (st : Store) (key v : Str) :
    (putResult st key v).history = st.history := rfl

theorem result_putResult (st : Store) (key v k : Str) :
    (putResult st key v).result k =
      if k = key then some v else st.result k := rfl

/-- The suffixes concatenated to a session identifier to form
`result_store` keys: the bare identifier for the article, then the
outline, tree, roles, analysis and files artifacts. -/
def artifactSuffixes : List Str :=
  [[], "_outline".data, "_tree".data, "_roles".data, "_analysis".data,
   "_files".data]

/-- The per-session values the excluded layer reads back. -/
inductive SessionKey
  | historyKey | statusKey | treeKey | rolesKey | analysisKey | filesKey
  | outlineKey | articleKey
deriving DecidableEq

/-- Read one session value the way app.py does: progress maps are keyed by
the bare identifier, artifacts by the identifier with a suffix appended. -/
def readKey (st : Store) (id : Str) : SessionKey → Option Str
  | .historyKey => st.history id
  | .statusKey => st.status id
  | .treeKey => st.result (id ++ "_tree".data)
  | .rolesKey => st.result (id ++ "_roles".data)
  | .analysisKey => st.result (id ++ "_analysis".data)
  | .filesKey => st.result (id ++ "_files".data)
  | .outlineKey => st.result (id ++ "_outline".data)
  | .articleKey => st.result id

/-- A write performed under a session identifier: a progress update, or an
artifact store under one of the concatenated keys. -/
inductive SessionWrite
  | progress (msg : Str)
  | artifact (sfx : Str) (v : Str)

/-- Apply a write under a session identifier, as app.py does. -/
def applyWrite (st : Store) (id : Str) : SessionWrite → Store
  | .progress msg => update_progress st id msg
  | .artifact sfx v => putResult st (id ++ sfx) v

/-- A write is well formed when its artifact suffix is one the code uses. -/
def writeWF : SessionWrite → Prop
  | .progress _ => True
  | .artifact sfx _ => sfx ∈ artifactSuffixes

/-- The human-edit path for the outline (app.py lines 641-649 and 702-704):
the submitted text is stored under the outline key with no processing. -/
def storeEditedOutline (st : Store) (pid text : Str) : Store :=
  putResult st (pid ++ "_outline".data) text

/-- `result_store.get(progress_id + "_outline", "")`. -/
def getOutline (st : Store) (pid : Str) : Str :=
  (st.result (pid ++ "_outline".data)).getD []

/-- Fold a list of progress messages into the store in order; the loop
bodies of app.py are modelled as emitting their messages in order and this
fold replays them through update_progress. -/
def foldProgress (st : Store) (pid : Str) : List Str → Store
  | [] => st
  | m :: ms => foldProgress (update_progress st pid m) pid ms

theorem result_foldProgress (st : Store) (pid : Str) (msgs : List Str) :
    (foldProgress st pid msgs).result = st.result := by
  induction msgs generalizing st with
  | nil => rfl
  | cons m ms ih => simp [foldProgress, ih, result_update_progress]

theorem history_foldProgress (st : Store) (pid : Str) (msgs : List Str) :
    ((foldProgress st pid msgs).history pid).getD [] =
      (st.history pid).getD [] ++ msgs.flatten := by
  induction msgs generalizing st with
  | nil => simp [foldProgress]
  | cons m ms ih =>
      simp [foldProgress, ih, history_update_progress, List.append_assoc]

/-- Default bound of get_full_blog's continuation loop (app.py line 441). -/
def max_iterations : Nat := 20

/-- The loop of get_full_blog (app.py lines 453-474): while iterations
remain and the accumulated text still carries the trailing marker, strip
the marker, request one more completion and append it.  The completion
calls are numbered; the pair returned is the final text and the number of
continuation calls issued. -/
def get_full_blogAux (llm : Nat → Str) : Nat → Str → Nat → Str × Nat
  | 0, fb, calls => (fb, calls)
  | n + 1, fb, calls =>
      if markerSearch fb then
        get_full_blogAux llm n (markerSub fb ++ llm calls) (calls + 1)
      else (fb, calls)

/-- get_full_blog (app.py lines 436-476) with the prompt context abstracted
into the completion function. -/
def get_full_blog (llm : Nat → Str) (initial : Str)
    (maxIter : Nat := max_iterations) : Str × Nat :=
  get_full_blogAux llm maxIter initial 0

/-- Progress message announcing chapter generation (app.py line 514). -/
def chapterStartMsg (idx : Nat) : Str :=
  "Chapter ".data ++ (Nat.repr idx).data ++ "を生成中...\n".data

/-- Progress message emitted when split output is detected (line 539). -/
def splitDetectedMsg : Str := "分割出力を検知。続きの生成を取得します...\n".data

/-- Progress message closing one chapter (app.py line 547). -/
def chapterDoneMsg (idx : Nat) : Str :=
  "Chapter ".data ++ (Nat.repr idx).data ++ "の生成が完了。\n".data

/-- Step 6 banner of process_final_blog_in_chapters (app.py line 486). -/
def step6Msg : Str := "Step 6: 章ごとにテックブログを生成中...\n".data

/-- Progress message for an outline that fails to parse (app.py line 499). -/
def parseFailMsg (e : Str) : Str :=
  "アウトラインJSONのパースに失敗: ".data ++ e ++ "\n".data

/-- Progress message for an outline without chapters (app.py line 504). -/
def noChaptersMsg : Str := "アウトライン内にchaptersがありません。\n".data

/-- Final progress message of the drafting stage (app.py line 562). -/
def draftingDoneMsg : Str := "最終テックブログの生成が完了しました\n".data

/-- The inner `while True` loop of process_final_blog_in_chapters (app.py
lines 519-543) for one chapter: request a completion, strip an outer
markdown fence from it, append it to the chapter accumulator after a
newline; when the accumulator ends with the sentinel, strip the sentinel,
right-strip and loop, otherwise stop.  One unit of fuel is one completion
call; `none` means the loop was still running after `fuel` calls.  Returns
the assembled chapter text, the next call index, and the progress messages
emitted. -/
def chapterInner (llm : Nat → Str) : Nat → Str → Nat → Option (Str × Nat × List Str)
  | _, _, 0 => none
  | ci, acc, fuel + 1 =>
      let response := remove_outer_markdown_fence (llm ci)
      let acc1 := acc ++ "\n".data ++ response
      if contSearch acc1 then
        (chapterInner llm (ci + 1) (pyRstrip (contSub acc1)) fuel).map
          (fun r => (r.1, r.2.1, splitDetectedMsg :: r.2.2))
      else some (acc1, ci + 1, [])

/-- The chapter loop of process_final_blog_in_chapters (app.py lines
513-547): chapters in outline order, each assembled by `chapterInner`,
each finished chapter appended to the running article after a newline. -/
def chaptersLoop (llm : Nat → Str) (fuel : Nat) :
    List Str → Nat → Nat → Str → Option (Str × Nat × List Str)
  | [], _, ci, fb => some (fb, ci, [])
  | _ :: rest, idx, ci, fb =>
      match chapterInner llm ci [] fuel with
      | none => none
      | some (text, ci1, msgs) =>
          match chaptersLoop llm fuel rest (idx + 1) ci1 (fb ++ "\n".data ++ text) with
          | none => none
          | some (fbF, ciF, msgs1) =>
              some (fbF, ciF,
                chapterStartMsg idx :: msgs ++ chapterDoneMsg idx :: msgs1)

/-- The per-chapter texts of a run, in chapter order, with the final call
index: the same computation as `chaptersLoop` projected onto the assembled
chapter texts. -/
def chapterTexts (llm : Nat → Str) (fuel : Nat) :
    List Str → Nat → Option (List Str × Nat)
  | [], ci => some ([], ci)
  | _ :: rest, ci =>
      match chapterInner llm ci [] fuel with
      | none => none
      | some (text, ci1, _) =>
          (chapterTexts llm fuel rest ci1).map (fun r => (text :: r.1, r.2))

/-- process_final_blog_in_chapters (app.py lines 479-565).  `parse` stands
for `json.loads` composed with `.get("chapters", [])` (standard library,
not repository code): an error carries the exception text, success carries
the serialized chapters (an absent chapters key yields the empty list).
The result pairs the final store with the number of completion calls
issued; `none` means the chapter loop was still running when the fuel ran
out. -/
def process_final_blog_in_chapters (parse : Str → Except Str (List Str))
    (llm : Nat → Str) (fuel : Nat) (pid : Str) (st : Store) :
    Option (Store × Nat) :=
  let st1 := update_progress st pid step6Msg
  let blogOutline := (st1.result (pid ++ "_outline".data)).getD []
  match parse blogOutline with
  | .error e => some (update_progress st1 pid (parseFailMsg e), 0)
  | .ok chapters =>
      if chapters = [] then some (update_progress st1 pid noChaptersMsg, 0)
      else
        match chaptersLoop llm fuel chapters 1 0 [] with
        | none => none
        | some (fb, calls, msgs) =>
            let st2 := foldProgress st1 pid msgs
            let fbFinal := remove_outer_markdown_fence (removeAllSentinels fb)
            some (update_progress (putResult st2 pid fbFinal) pid draftingDoneMsg,
              calls)

/-- Progress message announcing one file's analysis (app.py lines 364-366). -/
def analyzingMsg (i total : Nat) (rel : Str) : Str :=
  "ファイル解析中: ".data ++ (Nat.repr i).data ++ "/".data
    ++ (Nat.repr total).data ++ " -> ".data ++ rel ++ "\n".data

/-- Progress message for a failed per-file analysis (app.py line 384). -/
def analyzeFailMsg (rel e : Str) : Str :=
  "ファイル解析失敗: ".data ++ rel ++ " - ".data ++ e ++ "\n".data

/-- The fragment appended to detailed_code_analysis for one successfully
analyzed file (app.py line 381). -/
def analysisEntry (rel detail : Str) : Str :=
  "\n\n## ".data ++ rel ++ "\n".data ++ detail

/-- The per-file analysis loop of process_project (app.py lines 362-385).
`analyze` stands for reading the file followed by the completion call; any
exception along the way is the error value.  Files are pairs of a relative
path and a content; the result is the accumulated detailed_code_analysis
and the progress messages emitted, in order. -/
def analysisLoop (analyze : Str → Str → Except Str Str) (total : Nat) :
    Nat → List (Str × Str) → Str × List Str
  | _, [] => ([], [])
  | i, (rel, content) :: rest =>
      let r := analysisLoop analyze total (i + 1) rest
      match analyze rel content with
      | .ok detail => (analysisEntry rel detail ++ r.1, analyzingMsg i total rel :: r.2)
      | .error e =>
          (r.1, analyzingMsg i total rel :: analyzeFailMsg rel e :: r.2)

/-- Claim C9 (confirmed): an outline submitted through the human-edit path
is stored verbatim — no post-processing and no fence stripping — and a
subsequent read of the session's outline key returns it unchanged,
character for character. -/
theorem outline_roundtrip_verbatim (st : Store) (pid text : Str) :
    getOutline (storeEditedOutline st pid text) pid = text := by
  simp [getOutline, storeEditedOutline, result_putResult]

/-- Claim C3 as stated fails: with the concatenated-key scheme, writing the
article of session "x_outline" changes the outline subsequently read under
the distinct session "x". -/
theorem session_isolation_counterexample :
    readKey
        (applyWrite emptyStore "x_outline".data (SessionWrite.artifact [] "v".data))
        "x".data SessionKey.outlineKey
      ≠ readKey emptyStore "x".data SessionKey.outlineKey := by
  decide

/-- Claim C3 (amended): progress updates and artifact writes under session
A never change any value read under session B, provided the identifiers do
not collide under the concatenated-key scheme — that is, A followed by one
artifact suffix never equals B followed by another (true in particular for
identifiers of equal length, such as the UUIDs the application generates). -/
theorem session_isolation_amended (A B : Str) (st : Store) (w : SessionWrite)
    (k : SessionKey) (hwf : writeWF w)
    (hsep : ∀ s ∈ artifactSuffixes, ∀ t ∈ artifactSuffixes, A ++ s ≠ B ++ t) :
    readKey (applyWrite st A w) B k = readKey st B k := by
  have hAB : B ≠ A := by
    intro h
    exact hsep [] (by simp [artifactSuffixes]) [] (by simp [artifactSuffixes])
      (by simp [h])
  cases w with
  | progress msg =>
      cases k <;>
        simp [applyWrite, readKey, update_progress, hAB]
  | artifact sfx v =>
      have hone : ∀ t ∈ artifactSuffixes, (B ++ t) ≠ (A ++ sfx) := by
        intro t ht h
        exact hsep sfx hwf t ht h.symm
      have harticle : B ≠ A ++ sfx := by
        have := hone [] (by simp [artifactSuffixes])
        simpa using this
      cases k with
      | historyKey => rfl
      | statusKey => rfl
      | treeKey =>
          simp [applyWrite, readKey, result_putResult,
            hone "_tree".data (by simp [artifactSuffixes])]
      | rolesKey =>
          simp [applyWrite, readKey, result_putResult,
            hone "_roles".data (by simp [artifactSuffixes])]
      | analysisKey =>
          simp [applyWrite, readKey, result_putResult,
            hone "_analysis".data (by simp [artifactSuffixes])]
      | filesKey =>
          simp [applyWrite, readKey, result_putResult,
            hone "_files".data (by simp [artifactSuffixes])]
      | outlineKey =>
          simp [applyWrite, readKey, result_putResult,
            hone "_outline".data (by simp [artifactSuffixes])]
      | articleKey =>
          simp [applyWrite, readKey, result_putResult, harticle]

/-- Witness for the amended session-isolation theorem at a concrete pair of
non-colliding identifiers. -/
theorem session_isolation_witness :
    writeWF (SessionWrite.artifact "_tree".data "v".data) ∧
    (∀ s ∈ artifactSuffixes, ∀ t ∈ artifactSuffixes,
      "a".data ++ s ≠ "b".data ++ t) ∧
    readKey
        (applyWrite emptyStore "a".data (SessionWrite.artifact "_tree".data "v".data))
        "b".data SessionKey.outlineKey
      = readKey emptyStore "b".data SessionKey.outlineKey :=
  ⟨by simp [writeWF, artifactSuffixes], by decide,
    session_isolation_amended "a".data "b".data emptyStore _ _
      (by simp [writeWF, artifactSuffixes]) (by decide)⟩

/-- Claim C5 (confirmed): when the stored outline does not parse, the
drafting function records the user-visible parse-failure line in the
progress log, issues no completion calls, and leaves every result_store
entry — in particular the session's article — exactly as it was. -/
theorem outline_parse_failure_aborts (parse : Str → Except Str (List Str))
    (llm : Nat → Str) (fuel : Nat) (pid : Str) (st : Store) (e : Str)
    (h : parse ((st.result (pid ++ "_outline".data)).getD []) = .error e) :
    ∃ st1, process_final_blog_in_chapters parse llm fuel pid st = some (st1, 0) ∧
      (∀ k, st1.result k = st.result k) ∧
      (st1.history pid).getD [] =
        (st.history pid).getD [] ++ step6Msg ++ parseFailMsg e := by
  have h1 : parse (((update_progress st pid step6Msg).result
      (pid ++ "_outline".data)).getD []) = .error e := h
  refine ⟨update_progress (update_progress st pid step6Msg) pid (parseFailMsg e),
    ?_, fun k => rfl, ?_⟩
  · simp only [process_final_blog_in_chapters]
    rw [h1]
  · simp [history_update_progress, List.append_assoc]

/-- Witness for the parse-failure theorem: a parser that always fails, an
empty store. -/
theorem outline_parse_failure_witness :
    ((fun _ => Except.error "bad".data : Str → Except Str (List Str))
        ((emptyStore.result ("p".data ++ "_outline".data)).getD [])
      = Except.error "bad".data) ∧
    ∃ st1, process_final_blog_in_chapters
        (fun _ => Except.error "bad".data) (fun _ => []) 3 "p".data emptyStore
        = some (st1, 0) ∧
      (∀ k, st1.result k = emptyStore.result k) ∧
      (st1.history "p".data).getD [] =
        (emptyStore.history "p".data).getD [] ++ step6Msg ++ parseFailMsg "bad".data :=
  ⟨rfl, outline_parse_failure_aborts _ _ 3 "p".data emptyStore "bad".data rfl⟩

/-- Claim C10 (confirmed): when the stored outline parses but its chapters
entry is missing or empty (both reach the drafting function as the empty
chapter list), the function records the no-chapters progress line, issues
no completion calls, and leaves every result_store entry — in particular
the previously stored article — unchanged. -/
theorem empty_chapters_aborts (parse : Str → Except Str (List Str))
    (llm : Nat → Str) (fuel : Nat) (pid : Str) (st : Store)
    (h : parse ((st.result (pid ++ "_outline".data)).getD []) = .ok []) :
    ∃ st1, process_final_blog_in_chapters parse llm fuel pid st = some (st1, 0) ∧
      (∀ k, st1.result k = st.result k) ∧
      (st1.history pid).getD [] =
        (st.history pid).getD [] ++ step6Msg ++ noChaptersMsg := by
  have h1 : parse (((update_progress st pid step6Msg).result
      (pid ++ "_outline".data)).getD []) = .ok [] := h
  refine ⟨update_progress (update_progress st pid step6Msg) pid noChaptersMsg,
    ?_, fun k => rfl, ?_⟩
  · simp only [process_final_blog_in_chapters]
    rw [h1]
    simp
  · simp [history_update_progress, List.append_assoc]

/-- Witness for the empty-chapters theorem: a parser returning an empty
chapter list, an empty store. -/
theorem empty_chapters_witness :
    ((fun _ => Except.ok [] : Str → Except Str (List Str))
        ((emptyStore.result ("p".data ++ "_outline".data)).getD [])
      = Except.ok []) ∧
    ∃ st1, process_final_blog_in_chapters
        (fun _ => Except.ok []) (fun _ => []) 3 "p".data emptyStore
        = some (st1, 0) ∧
      (∀ k, st1.result k = emptyStore.result k) ∧
      (st1.history "p".data).getD [] =
        (emptyStore.history "p".data).getD [] ++ step6Msg ++ noChaptersMsg :=
  ⟨rfl, empty_chapters_aborts _ _ 3 "p".data emptyStore rfl⟩

/-- Claim C7 (confirmed): the detailed code analysis accumulated by the
per-file loop is exactly the concatenation, in processing order, of the
entries of the files whose analysis call succeeded; every file whose call
raises contributes nothing to the artifact, and a failure line containing
that file's relative path is emitted to the progress log. -/
theorem per_file_failure_is_skipped (analyze : Str → Str → Except Str Str)
    (total i : Nat) (files : List (Str × Str)) :
    (analysisLoop analyze total i files).1 =
      (files.filterMap (fun f =>
        match analyze f.1 f.2 with
        | .ok d => some (analysisEntry f.1 d)
        | .error _ => none)).flatten ∧
    (∀ rel content e, (rel, content) ∈ files → analyze rel content = .error e →
      analyzeFailMsg rel e ∈ (analysisLoop analyze total i files).2 ∧
      rel <:+: analyzeFailMsg rel e) := by
  induction files generalizing i with
  | nil =>
      refine ⟨rfl, ?_⟩
      intro rel content e hmem
      cases hmem
  | cons f rest ih =>
      obtain ⟨rel0, content0⟩ := f
      constructor
      · cases h : analyze rel0 content0 with
        | ok d =>
            simp only [analysisLoop, h, List.filterMap_cons, List.flatten_cons]
            rw [(ih (i + 1)).1]
        | error e0 =>
            simp only [analysisLoop, h, List.filterMap_cons]
            rw [(ih (i + 1)).1]
      · intro rel content e hmem herr
        refine ⟨?_, "ファイル解析失敗: ".data, " - ".data ++ e ++ "\n".data,
          by simp [analyzeFailMsg, List.append_assoc]⟩
        rcases List.mem_cons.mp hmem with hhead | htail
        · obtain ⟨h1, h2⟩ := Prod.mk.injEq .. ▸ hhead
          subst h1; subst h2
          simp only [analysisLoop, herr]
          simp
        · have hrec := ((ih (i + 1)).2 rel content e htail herr).1
          cases h : analyze rel0 content0 with
          | ok d => simp only [analysisLoop, h]; simp [hrec]
          | error e0 => simp only [analysisLoop, h]; simp [hrec]

/-- Witness for the per-file failure theorem: three files of which the
second fails — the artifact holds entries for files one and three only and
the log carries the failure line for file two. -/
theorem per_file_failure_witness :
    (("f2".data, "y".data) ∈
        [("f1".data, "x".data), ("f2".data, "y".data), ("f3".data, "z".data)] ∧
      (fun rel _ => if rel = "f2".data then Except.error "boom".data
        else Except.ok ("D".data) : Str → Str → Except Str Str) "f2".data "y".data
        = Except.error "boom".data) ∧
    ((analysisLoop
        (fun rel _ => if rel = "f2".data then Except.error "boom".data
          else Except.ok ("D".data)) 3 1
        [("f1".data, "x".data), ("f2".data, "y".data), ("f3".data, "z".data)]).1 =
      ([some (analysisEntry "f1".data "D".data), none,
        some (analysisEntry "f3".data "D".data)].filterMap id).flatten ∧
      analyzeFailMsg "f2".data "boom".data ∈
        (analysisLoop
          (fun rel _ => if rel = "f2".data then Except.error "boom".data
            else Except.ok ("D".data)) 3 1
          [("f1".data, "x".data), ("f2".data, "y".data), ("f3".data, "z".data)]).2 ∧
      "f2".data <:+: analyzeFailMsg "f2".data "boom".data) := by
  have h := per_file_failure_is_skipped
    (fun rel _ => if rel = "f2".data then Except.error "boom".data
      else Except.ok ("D".data)) 3 1
    [("f1".data, "x".data), ("f2".data, "y".data), ("f3".data, "z".data)]
  have h2 := h.2 "f2".data "y".data "boom".data (by decide) (by simp)
  exact ⟨⟨by decide, by simp⟩, by rw [h.1]; decide, h2.1, h2.2⟩

theorem get_full_blogAux_calls_le (llm : Nat → Str) (n : Nat) :
    ∀ fb c, (get_full_blogAux llm n fb c).2 ≤ c + n := by
  induction n with
  | zero => intro fb c; simp [get_full_blogAux]
  | succ n ih =>
      intro fb c
      simp only [get_full_blogAux]
      split
      · exact le_trans (ih _ _) (by omega)
      · exact Nat.le_add_right c (n + 1)

theorem scanAny_append_left (f : Str → Bool) (a : Str) {r : Str}
    (h : scanAny f r = true) : scanAny f (a ++ r) = true := by
  induction a with
  | nil => simpa
  | cons c cs ih =>
      simp only [List.cons_append, scanAny, Bool.or_eq_true]
      exact Or.inr ih

theorem chapterInner_never_returns (llm : Nat → Str)
    (h : ∀ i, contSearch (remove_outer_markdown_fence (llm i)) = true) :
    ∀ fuel ci acc, chapterInner llm ci acc fuel = none := by
  intro fuel
  induction fuel with
  | zero => intro ci acc; rfl
  | succ n ih =>
      intro ci acc
      have hs : contSearch
          (acc ++ "\n".data ++ remove_outer_markdown_fence (llm ci)) = true := by
        have h1 := h ci
        have h2 := scanAny_append_left contFullMatch (acc ++ "\n".data) h1
        simpa [contSearch] using h2
      simp only [chapterInner]
      rw [if_pos hs, ih]
      rfl

/-- Claim C1 (amended): the whole-document continuation loop of
get_full_blog issues at most `max_iterations` additional completion calls;
the per-chapter drafting loop, by contrast, is not bounded by any round
limit — whenever every stripped chunk still ends with the sentinel, the
chapter loop never returns, however much fuel (completion calls) it is
given.  The two modes do not share one bounded assembler. -/
theorem continuation_bound_whole_document_only (llm : Nat → Str) :
    (∀ initial maxIter, (get_full_blog llm initial maxIter).2 ≤ maxIter) ∧
    ((∀ i, contSearch (remove_outer_markdown_fence (llm i)) = true) →
      ∀ fuel ci acc, chapterInner llm ci acc fuel = none) := by
  constructor
  · intro initial maxIter
    have := get_full_blogAux_calls_le llm maxIter initial 0
    simpa [get_full_blog] using this
  · exact chapterInner_never_returns llm

/-- A completion function whose every chunk ends with the sentinel. -/
def llmCont : Nat → Str := fun _ => "x<<<CONTINUE>>>".data

theorem llmCont_always_continues (i : Nat) :
    contSearch (remove_outer_markdown_fence (llmCont i)) = true := by
  show contSearch (remove_outer_markdown_fence ("x<<<CONTINUE>>>".data)) = true
  decide

/-- A parse function standing for an outline with exactly one chapter. -/
def parseOne : Str → Except Str (List Str) := fun _ => Except.ok ["c1".data]

/-- Claim C1 as stated fails: with an always-continuing completion
function, the per-chapter drafting run is still inside its chapter loop
after `max_iterations + 1 = 21` completion calls, so the per-chapter mode
does not observe the bound that get_full_blog observes. -/
theorem chapter_loop_exceeds_bound_counterexample :
    (process_final_blog_in_chapters parseOne llmCont (max_iterations + 1)
        "p".data emptyStore).isNone = true := by
  decide

/-- Witness for the amended continuation-bound theorem, applying it to the
always-continuing completion function. -/
theorem continuation_bound_witness :
    (∀ i, contSearch (remove_outer_markdown_fence (llmCont i)) = true) ∧
    chapterInner llmCont 0 [] 5 = none :=
  ⟨llmCont_always_continues,
    (continuation_bound_whole_document_only llmCont).2 llmCont_always_continues 5 0 []⟩

/-- Claim C2 (amended): the files enumerated for per-file analysis are
exactly the files of the walk that lie under no ignored directory and have
no disallowed extension; the analysis enumeration applies neither the byte
size ceiling nor the decoded-length ceiling, so every corpus-retained file
is analyzed but the two sets are not equal in general. -/
theorem analysis_enumeration_filters (files : List FileEntry) :
    (∀ e, e ∈ analyzedFiles files ↔
      e ∈ files ∧ notIgnored e = true ∧ disallowedExt e.name = false) ∧
    (∀ e, e ∈ corpusKept files → e ∈ analyzedFiles files) := by
  constructor
  · intro e
    simp [analyzedFiles, List.mem_filter, Bool.and_eq_true, Bool.not_eq_true',
      and_assoc]
  · intro e he
    rw [corpusKept, List.mem_filter] at he
    rw [analyzedFiles, List.mem_filter]
    refine ⟨he.1, ?_⟩
    have hk := he.2
    simp only [keptFile, Bool.and_eq_true] at hk
    simp [hk.1.1.1.1, hk.1.1.1.2]

/-- A file below the decoded-length ceiling on no other account excluded. -/
def longFile : FileEntry :=
  ⟨[], "a.txt".data, 100, List.replicate 20001 'x'⟩

/-- Claim C2 as stated fails: a plain text file of 20001 characters is
enumerated for per-file analysis although its decoded length exceeds the
20000-character ceiling, and the corpus reader drops it, so the analyzed
set and the retained set differ. -/
theorem analysis_vs_corpus_counterexample :
    longFile ∈ analyzedFiles [longFile] ∧
      MAX_FILE_LENGTH < longFile.content.length ∧
      corpusKept [longFile] = [] := by
  have hlen : longFile.content.length = 20001 := by
    show (List.replicate 20001 'x').length = 20001
    rw [List.length_replicate]
  have hkept : keptFile longFile = false := by
    simp [keptFile, hlen, MAX_FILE_LENGTH]
  refine ⟨?_, ?_, ?_⟩
  · exact List.mem_filter.mpr ⟨List.Mem.head _, by decide⟩
  · rw [hlen]; decide
  · simp [corpusKept, List.filter, hkept]

/-- Witness for the amended analysis-enumeration theorem at a concrete
small project. -/
theorem analysis_enumeration_witness :
    (⟨[], "a.txt".data, 3, "A".data⟩ : FileEntry) ∈
        corpusKept [⟨[], "a.txt".data, 3, "A".data⟩] ∧
    (⟨[], "a.txt".data, 3, "A".data⟩ : FileEntry) ∈
        analyzedFiles [⟨[], "a.txt".data, 3, "A".data⟩] :=
  ⟨by decide,
    (analysis_enumeration_filters [⟨[], "a.txt".data, 3, "A".data⟩]).2
      ⟨[], "a.txt".data, 3, "A".data⟩ (by decide)⟩

theorem infix_of_mem_intercalate {x sep : Str} {l : List Str} (h : x ∈ l) :
    x <:+: List.intercalate sep l := by
  induction l with
  | nil => cases h
  | cons a tl ih =>
      cases tl with
      | nil =>
          rw [List.mem_singleton] at h
          subst h
          simp [List.intercalate]
      | cons b tl2 =>
          have hstep : List.intercalate sep (a :: b :: tl2) =
              a ++ (sep ++ List.intercalate sep (b :: tl2)) := by
            simp [List.intercalate, List.intersperse_cons_cons, List.flatten_cons]
          rcases List.mem_cons.mp h with rfl | htail
          · rw [hstep]
            exact (List.prefix_append x _).isInfix
          · have hr := ih htail
            rw [hstep]
            calc x <:+: List.intercalate sep (b :: tl2) := hr
              _ <:+: a ++ (sep ++ List.intercalate sep (b :: tl2)) :=
                  ((List.suffix_append sep _).trans (List.suffix_append a _)).isInfix

/-- Claim C4 (confirmed): every file retained in the corpus has an allowed
extension, byte size at most the 20 MiB ceiling and decoded length at most
the 20000-character ceiling; each retained file's block — its header line
carrying the path relative to the root, followed by its content — occurs
in the corpus text, and for a duplicate-free walk each retained file
appears exactly once in the retained sequence. -/
theorem corpus_reader_filters_and_headers (files : List FileEntry) :
    (∀ e, e ∈ corpusKept files →
      disallowedExt e.name = false ∧ e.size ≤ MAX_FILE_SIZE ∧
        e.content.length ≤ MAX_FILE_LENGTH ∧
        fileBlock e = fileHeader e ++ e.content ∧
        relPath e <:+: fileHeader e ∧
        fileBlock e <:+: read_project_files files) ∧
    (files.Nodup → (corpusKept files).Nodup) := by
  constructor
  · intro e he
    have hmem := he
    rw [corpusKept, List.mem_filter] at he
    have hk := he.2
    simp only [keptFile, Bool.and_eq_true, Bool.not_eq_true', decide_eq_true_eq] at hk
    refine ⟨hk.1.1.1.2, hk.1.2, hk.2, rfl, ?_, ?_⟩
    · exact ⟨"\n\n### File: ".data, "\n".data, by simp [fileHeader, List.append_assoc]⟩
    · exact infix_of_mem_intercalate (List.mem_map_of_mem fileBlock hmem)
  · intro hnd
    exact hnd.filter keptFile

/-- Witness for the corpus-reader theorem at a concrete two-file project. -/
theorem corpus_reader_witness :
    (⟨[], "a.txt".data, 3, "A".data⟩ : FileEntry) ∈
        corpusKept [⟨[], "a.txt".data, 3, "A".data⟩, ⟨["d".data], "b.md".data, 4, "B".data⟩] ∧
    ([⟨[], "a.txt".data, 3, "A".data⟩, ⟨["d".data], "b.md".data, 4, "B".data⟩] :
        List FileEntry).Nodup ∧
    disallowedExt ("a.txt".data) = false ∧
    (corpusKept [⟨[], "a.txt".data, 3, "A".data⟩,
        ⟨["d".data], "b.md".data, 4, "B".data⟩]).Nodup :=
  ⟨by decide, by decide,
    ((corpus_reader_filters_and_headers
        [⟨[], "a.txt".data, 3, "A".data⟩, ⟨["d".data], "b.md".data, 4, "B".data⟩]).1
      ⟨[], "a.txt".data, 3, "A".data⟩ (by decide)).1,
    (corpus_reader_filters_and_headers
        [⟨[], "a.txt".data, 3, "A".data⟩, ⟨["d".data], "b.md".data, 4, "B".data⟩]).2
      (by decide)⟩

theorem fence_shape_iff (opn t : Str) :
    (opn.isPrefixOf t && fenceClose.isSuffixOf (t.drop opn.length)) = true ↔
      ∃ m, t = opn ++ m ++ fenceClose := by
  rw [Bool.and_eq_true, List.isPrefixOf_iff_prefix, List.isSuffixOf_iff_suffix]
  constructor
  · rintro ⟨⟨r, hr⟩, hsfx⟩
    rw [← hr, List.drop_left] at hsfx
    obtain ⟨p, hp⟩ := hsfx
    exact ⟨p, by rw [← hr, ← hp, List.append_assoc]⟩
  · rintro ⟨m, rfl⟩
    constructor
    · exact ⟨m ++ fenceClose, by rw [List.append_assoc]⟩
    · rw [List.append_assoc, List.drop_left]
      exact ⟨m, rfl⟩

theorem dropRightN_append_close (m : Str) :
    dropRightN 3 (m ++ fenceClose) = m := by
  have h3 : fenceClose.length = 3 := rfl
  rw [dropRightN, List.length_append, h3, Nat.add_sub_cancel]
  exact List.take_left m fenceClose

/-- Claim C8 (confirmed): when the stripped text decomposes as one outer
fence — the markdown or json opening literal, an arbitrary interior, a
closing fence — the corresponding stripper returns the interior (with the
whitespace adjoining the fence markers removed, any embedded fences inside
it untouched); when the stripped text has no such decomposition the
text is returned unchanged. -/
theorem outer_fence_stripping (text mid : Str) :
    (pyStrip text = mdOpen ++ mid ++ fenceClose →
      remove_outer_markdown_fence text = pyStrip mid) ∧
    ((∀ m, pyStrip text ≠ mdOpen ++ m ++ fenceClose) →
      remove_outer_markdown_fence text = text) ∧
    (pyStrip text = jsonOpen ++ mid ++ fenceClose →
      remove_outer_json_fence text = pyStrip mid) ∧
    ((∀ m, pyStrip text ≠ jsonOpen ++ m ++ fenceClose) →
      remove_outer_json_fence text = text) := by
  have hmd : mdOpen.length = 11 := rfl
  have hjs : jsonOpen.length = 7 := rfl
  refine ⟨?_, ?_, ?_, ?_⟩
  · intro h
    have hcond : (mdOpen.isPrefixOf (pyStrip text)
        && fenceClose.isSuffixOf ((pyStrip text).drop 11)) = true := by
      rw [← hmd, fence_shape_iff]
      exact ⟨mid, h⟩
    rw [remove_outer_markdown_fence, if_pos hcond, h, List.append_assoc,
      List.drop_left' hmd, dropRightN_append_close]
  · intro h
    have hcond : (mdOpen.isPrefixOf (pyStrip text)
        && fenceClose.isSuffixOf ((pyStrip text).drop 11)) = false := by
      rw [← hmd]
      rw [Bool.eq_false_iff]
      intro hc
      obtain ⟨m, hm⟩ := (fence_shape_iff mdOpen (pyStrip text)).mp hc
      exact h m hm
    rw [remove_outer_markdown_fence, if_neg (by simp [hcond])]
  · intro h
    have hcond : (jsonOpen.isPrefixOf (pyStrip text)
        && fenceClose.isSuffixOf ((pyStrip text).drop 7)) = true := by
      rw [← hjs, fence_shape_iff]
      exact ⟨mid, h⟩
    rw [remove_outer_json_fence, if_pos hcond, h, List.append_assoc,
      List.drop_left' hjs, dropRightN_append_close]
  · intro h
    have hcond : (jsonOpen.isPrefixOf (pyStrip text)
        && fenceClose.isSuffixOf ((pyStrip text).drop 7)) = false := by
      rw [← hjs]
      rw [Bool.eq_false_iff]
      intro hc
      obtain ⟨m, hm⟩ := (fence_shape_iff jsonOpen (pyStrip text)).mp hc
      exact h m hm
    rw [remove_outer_json_fence, if_neg (by simp [hcond])]

/-- Witness for the fence-stripping theorem: a markdown-fenced text is
unwrapped to its interior and a fence-free text is returned unchanged. -/
theorem outer_fence_stripping_witness :
    (pyStrip "```markdown\nhi\n```".data = mdOpen ++ "\nhi\n".data ++ fenceClose) ∧
    remove_outer_markdown_fence "```markdown\nhi\n```".data = pyStrip "\nhi\n".data ∧
    remove_outer_json_fence "hello".data = "hello".data :=
  ⟨by decide,
    (outer_fence_stripping "```markdown\nhi\n```".data "\nhi\n".data).1 (by decide),
    (outer_fence_stripping "hello".data []).2.2.2 (fun m hm => by
      have hpre : jsonOpen <+: pyStrip "hello".data :=
        ⟨m ++ fenceClose, by rw [hm, List.append_assoc]⟩
      have hb : jsonOpen.isPrefixOf (pyStrip "hello".data) = true :=
        List.isPrefixOf_iff_prefix.mpr hpre
      have hfalse : jsonOpen.isPrefixOf (pyStrip "hello".data) = false := by
        decide
      rw [hb] at hfalse
      exact absurd hfalse (by decide))⟩

theorem chaptersLoop_none_iff (llm : Nat → Str) (fuel : Nat) (chs : List Str) :
    ∀ idx ci fb, chaptersLoop llm fuel chs idx ci fb = none ↔
      chapterTexts llm fuel chs ci = none := by
  induction chs with
  | nil => intro idx ci fb; simp [chaptersLoop, chapterTexts]
  | cons c rest ih =>
      intro idx ci fb
      simp only [chaptersLoop, chapterTexts]
      cases h : chapterInner llm ci [] fuel with
      | none => simp
      | some r =>
          obtain ⟨text, ci1, msgs⟩ := r
          simp only
          cases h2 : chaptersLoop llm fuel rest (idx + 1) ci1
              (fb ++ "\n".data ++ text) with
          | none =>
              have := (ih (idx + 1) ci1 (fb ++ "\n".data ++ text)).mp h2
              simp [this]
          | some r2 =>
              obtain ⟨fbF, ciF, msgs1⟩ := r2
              have hne : chapterTexts llm fuel rest ci1 ≠ none := by
                intro hn
                rw [(ih (idx + 1) ci1 (fb ++ "\n".data ++ text)).mpr hn] at h2
                cases h2
              cases h3 : chapterTexts llm fuel rest ci1 with
              | none => exact absurd h3 hne
              | some r3 => simp

theorem chaptersLoop_some (llm : Nat → Str) (fuel : Nat) (chs : List Str) :
    ∀ idx ci fb fbF ciF msgs,
      chaptersLoop llm fuel chs idx ci fb = some (fbF, ciF, msgs) →
      ∃ ts, chapterTexts llm fuel chs ci = some (ts, ciF) ∧
        fbF = fb ++ (ts.map (fun t => "\n".data ++ t)).flatten ∧
        ts.length = chs.length := by
  induction chs with
  | nil =>
      intro idx ci fb fbF ciF msgs h
      simp only [chaptersLoop, Option.some.injEq, Prod.mk.injEq] at h
      obtain ⟨h1, h2, h3⟩ := h
      exact ⟨[], by simp [chapterTexts, h2], by simp [h1.symm], rfl⟩
  | cons c rest ih =>
      intro idx ci fb fbF ciF msgs h
      simp only [chaptersLoop] at h
      split at h
      · cases h
      · rename_i text ci1 msgs0 h1
        split at h
        · cases h
        · rename_i fbF1 ciF1 msgs1 h2
          simp only [Option.some.injEq, Prod.mk.injEq] at h
          obtain ⟨hfb, hci, hmsgs⟩ := h
          obtain ⟨ts', hts', hfb', hlen'⟩ :=
            ih (idx + 1) ci1 (fb ++ "\n".data ++ text) fbF1 ciF1 msgs1 h2
          refine ⟨text :: ts', ?_, ?_, ?_⟩
          · simp only [chapterTexts, h1, hts', Option.map_some']
            rw [hci]
          · rw [← hfb, hfb', List.map_cons, List.flatten_cons]
            simp [List.append_assoc]
          · simp [hlen']

/-- Claim C6 (amended): per-chapter drafting processes the chapters
strictly in outline order — the run assembles exactly one text per
chapter, in order — and the stored final article is obtained from the
in-order concatenation of the assembled per-chapter texts (each preceded
by the newline the code inserts) by a single left-to-right
sentinel-removal pass followed by outer-markdown-fence stripping.  The
pass removes every sentinel occurrence present in the concatenation, but
the removals can abut the surrounding fragments into a new sentinel
substring, so the stored article is not sentinel-free in general. -/
theorem chapters_in_order_assembled (parse : Str → Except Str (List Str))
    (llm : Nat → Str) (fuel : Nat) (pid : Str) (st : Store)
    (chapters : List Str)
    (hp : parse ((st.result (pid ++ "_outline".data)).getD []) = .ok chapters)
    (hne : chapters ≠ []) :
    (process_final_blog_in_chapters parse llm fuel pid st).map
        (fun r => (r.1.result pid, r.2)) =
      (chapterTexts llm fuel chapters 0).map
        (fun r => (some (remove_outer_markdown_fence (removeAllSentinels
            ((r.1.map (fun t => "\n".data ++ t)).flatten))), r.2)) ∧
    (∀ ts ciF, chapterTexts llm fuel chapters 0 = some (ts, ciF) →
      ts.length = chapters.length) := by
  have hp1 : parse (((update_progress st pid step6Msg).result
      (pid ++ "_outline".data)).getD []) = .ok chapters := hp
  constructor
  · simp only [process_final_blog_in_chapters, hp1, if_neg hne]
    cases hl : chaptersLoop llm fuel chapters 1 0 [] with
    | none =>
        rw [(chaptersLoop_none_iff llm fuel chapters 1 0 []).mp hl]
        rfl
    | some r =>
        obtain ⟨fb, calls, msgs⟩ := r
        obtain ⟨ts, hts, hfb, _⟩ :=
          chaptersLoop_some llm fuel chapters 1 0 [] fb calls msgs hl
        rw [hts]
        simp only [Option.map_some']
        rw [hfb]
        simp [result_update_progress, result_putResult, result_foldProgress]
  · intro ts ciF hts
    cases hl : chaptersLoop llm fuel chapters 1 0 [] with
    | none =>
        rw [(chaptersLoop_none_iff llm fuel chapters 1 0 []).mp hl] at hts
        cases hts
    | some r =>
        obtain ⟨fb, calls, msgs⟩ := r
        obtain ⟨ts', hts', _, hlen'⟩ :=
          chaptersLoop_some llm fuel chapters 1 0 [] fb calls msgs hl
        rw [hts'] at hts
        simp only [Option.some.injEq, Prod.mk.injEq] at hts
        rw [← hts.1]
        exact hlen'

/-- A completion function whose single chunk carries two interleaved
sentinel fragments. -/
def llmJuxta : Nat → Str := fun _ => "<<CONT<CONTINUE>INUE>>".data

/-- Claim C6 as stated fails: over a one-chapter outline whose chapter text
interleaves a sentinel inside another sentinel's letters, the single
left-to-right clean-up pass removes the inner occurrence and thereby abuts
the remaining fragments into a new sentinel, so the stored article still
contains the sentinel substring of two angle brackets around the word. -/
theorem sentinel_left_in_article_counterexample :
    (process_final_blog_in_chapters parseOne llmJuxta 5 "p".data emptyStore).map
        (fun r => r.1.result "p".data) = some (some "\n\n<<CONTINUE>>".data) ∧
    hasSentinel "\n\n<<CONTINUE>>".data = true := by
  constructor
  · decide
  · decide

/-- A completion function returning a sentinel-free chunk. -/
def llmPlain : Nat → Str := fun _ => "hello".data

/-- Witness for the amended chapter-assembly theorem at a concrete clean
one-chapter run. -/
theorem chapters_in_order_witness :
    (parseOne ((emptyStore.result ("p".data ++ "_outline".data)).getD [])
      = Except.ok ["c1".data]) ∧
    (process_final_blog_in_chapters parseOne llmPlain 3 "p".data emptyStore).map
        (fun r => (r.1.result "p".data, r.2)) =
      (chapterTexts llmPlain 3 ["c1".data] 0).map
        (fun r => (some (remove_outer_markdown_fence (removeAllSentinels
            ((r.1.map (fun t => "\n".data ++ t)).flatten))), r.2)) :=
  ⟨rfl,
    (chapters_in_order_assembled parseOne llmPlain 3 "p".data emptyStore
      ["c1".data] rfl (by simp)).1⟩
